import Mathlib

/-!
Verification of the log-viewer ingestion and filtering core
(`src/log_viewer/main.py`, class `LogViewerWindow`).

The Python methods are shallowly embedded as pure Lean functions:

* `pyStrip`, `pyLower`, `pyIn`, `pySplitSpace3`, `pySplitNl`, `pyJoin`
  model the Python string primitives `str.strip()`, `str.lower()`,
  the `in` operator, `line.split(" ", 3)`, `s.split("\n")` and
  `"\n".join(...)` used by the source (ASCII case folding).
* `buildCmd` embeds `LogViewerWindow._build_cmd`.
* `classifyLine` embeds the record construction of
  `LogViewerWindow._add_line` (priority keyword loop, timestamp token,
  message token).
* `loadLogs` embeds `LogViewerWindow._load_logs`, with the outcome of
  `subprocess.run` abstracted as a `RunOutcome` (a completed process
  with an exit code and captured stdout, or a raised exception such as
  `TimeoutExpired` / `FileNotFoundError`).
* `vsAppend` / `vsSetFilter` embed the `Gtk.TreeModelFilter` view:
  a row inserted into the store is tested with `_filter_func` against
  the current search text, and a search change triggers `refilter`,
  which recomputes the whole visible subset.
* `FState` / `fstep` embed the follow-session state touched by
  `_toggle_follow` and `_follow_thread`: the running flag, the owned
  process handle `_follow_proc`, and which spawned processes have been
  sent `terminate()`.  `followLoopFrom` embeds the reading loop of
  `_follow_thread` (one flag observation per line read).
-/

namespace LogViewer

/-- Characters removed by Python `str.strip()` (ASCII whitespace). -/
def isPySpace (c : Char) : Bool :=
  c = ' ' || c = '\t' || c = '\n' || c = '\r' || c = '\x0b' || c = '\x0c'

/-- Python `s.strip()`: drop leading and trailing whitespace. -/
def pyStrip (s : String) : String :=
  String.mk (((s.data.dropWhile isPySpace).reverse.dropWhile isPySpace).reverse)

/-- Python `s.lower()` (ASCII case folding, the range the source's keywords use). -/
def pyLower (s : String) : String :=
  String.mk (s.data.map Char.toLower)

/-- Does `hay` start with `needle`? Helper for the Python `in` operator. -/
def seqStarts : List Char → List Char → Bool
  | [], _ => true
  | _ :: _, [] => false
  | a :: as, b :: bs => (a == b) && seqStarts as bs

/-- Does `needle` occur contiguously inside `hay`? Helper for the Python `in` operator. -/
def seqInside (needle : List Char) : List Char → Bool
  | [] => seqStarts needle []
  | b :: bs => seqStarts needle (b :: bs) || seqInside needle bs

/-- Python `needle in hay` for strings: contiguous substring containment. -/
def pyIn (needle hay : String) : Bool :=
  seqInside needle.data hay.data

/-- Python `s.split(sep, maxsplit)` on a single-character separator:
at most `maxsplit` splits, empty fields preserved. -/
def pySplitAux (sep : Char) : Nat → List Char → List Char → List String
  | _, acc, [] => [String.mk acc.reverse]
  | 0, acc, c :: cs => pySplitAux sep 0 (c :: acc) cs
  | n + 1, acc, c :: cs =>
    if c = sep then String.mk acc.reverse :: pySplitAux sep n [] cs
    else pySplitAux sep (n + 1) (c :: acc) cs

/-- `line.split(" ", 3)` as used by `_add_line`. -/
def pySplitSpace3 (s : String) : List String :=
  pySplitAux ' ' 3 [] s.data

/-- Full split on a separator character, Python `s.split("\n")` with empty fields kept. -/
def splitCharList (sep : Char) : List Char → List (List Char)
  | [] => [[]]
  | c :: cs =>
    if c = sep then [] :: splitCharList sep cs
    else
      match splitCharList sep cs with
      | [] => [[c]]
      | p :: ps => (c :: p) :: ps

/-- Python `s.split("\n")`. -/
def pySplitNl (s : String) : List String :=
  (splitCharList '\n' s.data).map String.mk

/-- Python `sep.join(xs)`. -/
def pyJoin (sep : String) : List String → String
  | [] => ""
  | [x] => x
  | x :: xs => x ++ sep ++ pyJoin sep xs

/-- One row of `self.log_store` (`Gtk.ListStore(str, str, str)`):
priority, timestamp and message, all stored as strings by the source. -/
structure LogRecord where
  prio : String
  ts : String
  msg : String
deriving DecidableEq

/-- The keyword table of `_add_line`, in source order (first match wins). -/
def prioKeywords : List (String × String) :=
  [("error", "3"), ("err", "3"), ("warning", "4"), ("warn", "4"),
   ("crit", "2"), ("alert", "1"), ("emerg", "0"), ("debug", "7"), ("notice", "5")]

/-- The `for kw, p in [...]: if kw in line.lower(): prio = p; break` loop of
`_add_line`: first keyword contained in the lowered line wins, else the
initial value "6". -/
def inferPrioLoop (lower : String) : List (String × String) → String
  | [] => "6"
  | (kw, p) :: rest => if pyIn kw lower then p else inferPrioLoop lower rest

/-- Severity classification of `_add_line` on a raw line. -/
def inferPrio (line : String) : String :=
  inferPrioLoop (pyLower line) prioKeywords

/-- Record construction of `_add_line`: `parts = line.split(" ", 3)`,
`ts = parts[0] if parts else ""`, `msg = parts[-1] if len(parts) > 1 else line`,
priority from the keyword loop. -/
def classifyLine (line : String) : LogRecord :=
  let parts := pySplitSpace3 line
  { prio := inferPrio line
    ts := parts.headD ""
    msg := if parts.length > 1 then parts.getLastD "" else line }

/-- `LogViewerWindow._build_cmd`: argument list for journalctl built from the
unit entry text, the priority drop-down index (0 = "All", `i` = priority
`i - 1`), the since entry text and the follow flag. -/
def buildCmd (unitText : String) (prioIdx : Nat) (sinceText : String)
    (follow : Bool) : List String :=
  let cmd := ["journalctl", "--no-pager", "-o", "short-iso"]
  let unit := pyStrip unitText
  let cmd := if unit ≠ "" then cmd ++ ["-u", unit] else cmd
  let cmd := if prioIdx > 0 then cmd ++ ["-p", toString (prioIdx - 1)] else cmd
  let since := pyStrip sinceText
  let cmd := if since ≠ "" then cmd ++ ["--since", since] else cmd
  if follow then cmd ++ ["-f"] else cmd ++ ["-n", "1000"]

/-- Outcome of `subprocess.run(cmd, capture_output=True, text=True, timeout=10)`:
either a completed process (any exit code, captured stdout) or a raised
exception (`TimeoutExpired`, `FileNotFoundError`, ...), carrying `str(e)`. -/
inductive RunOutcome where
  | ok (returncode : Int) (stdout : String)
  | exn (message : String)

/-- The window state touched by `_load_logs` / `_add_line` / export:
the rows of `self.log_store` and the raw lines in `self._all_lines`. -/
structure WinState where
  store : List LogRecord
  allLines : List String
deriving DecidableEq

/-- `LogViewerWindow._add_line`: append the classified record to the store and
the raw line to `_all_lines`. -/
def addLine (st : WinState) (line : String) : WinState :=
  { store := st.store ++ [classifyLine line]
    allLines := st.allLines ++ [line] }

/-- `LogViewerWindow._load_logs`: clear the store and `_all_lines`, run the
command; on a completed process split the stripped stdout into lines and add
each, on a raised exception append the single synthetic record
`["3", "", str(e)]` to the store only. -/
def loadLogs (_st : WinState) (o : RunOutcome) : WinState :=
  let cleared : WinState := { store := [], allLines := [] }
  match o with
  | .ok _rc out =>
    let s := pyStrip out
    let lines := if s = "" then [] else pySplitNl s
    lines.foldl addLine cleared
  | .exn m => { cleared with store := cleared.store ++ [{ prio := "3", ts := "", msg := m }] }

/-- `_on_export_response`: the exported text is `"\n".join(self._all_lines)`. -/
def exportText (st : WinState) : String :=
  pyJoin "\n" st.allLines

/-- `LogViewerWindow._filter_func`: lower the search entry text; empty search
shows every row, otherwise test substring containment in the lowered message. -/
def filterFunc (searchText msg : String) : Bool :=
  let search := pyLower searchText
  if search = "" then true
  else pyIn search (pyLower msg)

/-- The filtered view (`Gtk.TreeModelFilter` over the store): the appended
records, the current search text, and the cached visible rows the widget
displays. -/
structure ViewState where
  records : List LogRecord
  search : String
  visibleCache : List LogRecord

/-- Appending a row to the filtered store: the widget tests the new row with
`_filter_func` against the current search text and shows it iff it passes. -/
def vsAppend (st : ViewState) (r : LogRecord) : ViewState :=
  { records := st.records ++ [r]
    search := st.search
    visibleCache := if filterFunc st.search r.msg then st.visibleCache ++ [r]
                    else st.visibleCache }

/-- A search-entry change: `_filter_view` calls `refilter`, which re-runs
`_filter_func` with the new search text on every stored row. -/
def vsSetFilter (st : ViewState) (s : String) : ViewState :=
  { records := st.records
    search := s
    visibleCache := st.records.filter (fun r => filterFunc s r.msg) }

/-- Events delivered to `_toggle_follow`: the toggle turning on (start) or
off (stop). -/
inductive FEv where
  | start
  | stop
deriving DecidableEq

/-- Follow-session state of the window: `_follow_running`, the owned handle
`_follow_proc` (process ids numbered in spawn order), the number of processes
spawned so far, and the ids that have been sent `terminate()`. -/
structure FState where
  running : Bool
  owned : Option Nat
  spawned : Nat
  terminated : List Nat

/-- `LogViewerWindow._toggle_follow` plus the spawn in `_follow_thread`:
a start event sets the flag, spawns a fresh process and overwrites
`_follow_proc` with it; a stop event clears the flag and calls
`terminate()` on the currently owned process, if any. -/
def fstep (s : FState) : FEv → FState
  | .start =>
    { running := true
      owned := some s.spawned
      spawned := s.spawned + 1
      terminated := s.terminated }
  | .stop =>
    { s with
      running := false
      terminated := match s.owned with
                    | some p => s.terminated ++ [p]
                    | none => s.terminated }

/-- Initial window state: `_follow_proc = None`, `_follow_running = False`. -/
def fInit : FState :=
  { running := false, owned := none, spawned := 0, terminated := [] }

/-- Spawned processes that were never sent `terminate()`. -/
def liveProcs (s : FState) : List Nat :=
  (List.range s.spawned).filter (fun p => decide (p ∉ s.terminated))

/-- The reading loop of `_follow_thread`, starting at flag-observation index
`i`: for each line read from the pipe it first observes `_follow_running`
(value `flag i` at the i-th observation) and breaks if false; otherwise it
strips the line and delivers it via `GLib.idle_add(self._add_line, line)`
when non-empty.  The result is the list of delivered payloads. -/
def followLoopFrom (flag : Nat → Bool) : List String → Nat → List String
  | [], _ => []
  | l :: ls, i =>
    if flag i then
      if pyStrip l = "" then followLoopFrom flag ls (i + 1)
      else pyStrip l :: followLoopFrom flag ls (i + 1)
    else []

/-- All records the reading thread ever delivers for a given stream of lines
and a given history of flag observations. -/
def followLoop (lines : List String) (flag : Nat → Bool) : List String :=
  followLoopFrom flag lines 0

/-! ### Helper lemmas about the string primitives -/

theorem seqStarts_iff (n : List Char) : ∀ h : List Char,
    seqStarts n h = true ↔ ∃ q, h = n ++ q := by
  induction n with
  | nil =>
    intro h
    simp [seqStarts]
  | cons a as ih =>
    intro h
    cases h with
    | nil =>
      simp [seqStarts]
    | cons b bs =>
      simp only [seqStarts, Bool.and_eq_true, beq_iff_eq, ih, List.cons_append,
        List.cons.injEq]
      constructor
      · rintro ⟨rfl, q, rfl⟩
        exact ⟨q, rfl, rfl⟩
      · rintro ⟨q, rfl, rfl⟩
        exact ⟨rfl, q, rfl⟩

theorem seqInside_iff (n : List Char) : ∀ h : List Char,
    seqInside n h = true ↔ ∃ p q, h = p ++ n ++ q := by
  intro h
  induction h with
  | nil =>
    simp only [seqInside, seqStarts_iff]
    constructor
    · rintro ⟨q, hq⟩
      exact ⟨[], q, hq⟩
    · rintro ⟨p, q, hpq⟩
      refine ⟨q, ?_⟩
      have hp : p = [] := by
        cases p with
        | nil => rfl
        | cons x xs => simp at hpq
      subst hp
      simpa using hpq
  | cons b bs ih =>
    simp only [seqInside, Bool.or_eq_true, seqStarts_iff, ih]
    constructor
    · rintro (⟨q, hq⟩ | ⟨p, q, hpq⟩)
      · exact ⟨[], q, by simpa using hq⟩
      · exact ⟨b :: p, q, by simp [hpq]⟩
    · rintro ⟨p, q, hpq⟩
      cases p with
      | nil =>
        exact Or.inl ⟨q, by simpa using hpq⟩
      | cons x xs =>
        right
        simp only [List.cons_append, List.cons.injEq] at hpq
        exact ⟨xs, q, hpq.2⟩

theorem pyIn_iff (needle hay : String) :
    pyIn needle hay = true ↔ ∃ p q, hay.data = p ++ needle.data ++ q := by
  exact seqInside_iff needle.data hay.data

theorem pyLower_eq_empty_iff (s : String) : pyLower s = "" ↔ s = "" := by
  cases s with
  | mk data =>
    show String.mk (data.map Char.toLower) = String.mk [] ↔ String.mk data = String.mk []
    simp [String.ext_iff]

theorem dropWhile_all (p : Char → Bool) :
    ∀ l : List Char, (∀ c ∈ l, p c = true) → l.dropWhile p = [] := by
  intro l hl
  induction l with
  | nil => rfl
  | cons c cs ih =>
    have hc : p c = true := hl c (by simp)
    simp only [List.dropWhile, hc]
    exact ih (fun x hx => hl x (by simp [hx]))

theorem pyStrip_of_all_space (s : String)
    (h : ∀ c ∈ s.data, isPySpace c = true) : pyStrip s = "" := by
  unfold pyStrip
  rw [dropWhile_all isPySpace s.data h]
  rfl

/-! ### Spec-side formulations (from the specification's words, for
refinement comparison with the source embeddings) -/

/-- The keyword priority order as the specification lists it:
error/err → 3, warning/warn → 4, crit → 2, alert → 1, emerg → 0,
debug → 7, notice → 5. -/
def specPrioTable : List (String × String) :=
  [("error", "3"), ("err", "3"), ("warning", "4"), ("warn", "4"),
   ("crit", "2"), ("alert", "1"), ("emerg", "0"), ("debug", "7"), ("notice", "5")]

/-- Severity per the specification: the first keyword of the priority order
contained (case-insensitively) in the line wins; no match defaults to 6. -/
def specPrio (line : String) : String :=
  match specPrioTable.find? (fun kp => pyIn kp.1 (pyLower line)) with
  | some kp => kp.2
  | none => "6"

/-- The command shape as the specification describes it: fixed prefix, then
each restriction segment exactly when its (stripped) filter value is present,
then the follow flag or the fixed 1000-entry cap. -/
def specCmd (unitText : String) (prioIdx : Nat) (sinceText : String)
    (follow : Bool) : List String :=
  ["journalctl", "--no-pager", "-o", "short-iso"]
    ++ (if pyStrip unitText ≠ "" then ["-u", pyStrip unitText] else [])
    ++ (if prioIdx > 0 then ["-p", toString (prioIdx - 1)] else [])
    ++ (if pyStrip sinceText ≠ "" then ["--since", pyStrip sinceText] else [])
    ++ (if follow then ["-f"] else ["-n", "1000"])

/-! ### Severity classification (C5, C3) -/

theorem inferPrioLoop_eq_find (lower : String) :
    ∀ table : List (String × String),
      inferPrioLoop lower table =
        match table.find? (fun kp => pyIn kp.1 lower) with
        | some kp => kp.2
        | none => "6" := by
  intro table
  induction table with
  | nil => rfl
  | cons kp rest ih =>
    obtain ⟨kw, p⟩ := kp
    cases hkw : pyIn kw lower with
    | true => simp [inferPrioLoop, List.find?_cons, hkw]
    | false => simp [inferPrioLoop, List.find?_cons, hkw, ih]

theorem pyIn_err_of_error (s : String) (h : pyIn "error" s = true) :
    pyIn "err" s = true := by
  have h2 : ∃ p q, s.data = p ++ ("error" : String).data ++ q := (pyIn_iff _ _).mp h
  obtain ⟨p, q, hpq⟩ := h2
  rw [pyIn_iff]
  refine ⟨p, 'o' :: 'r' :: q, ?_⟩
  have hdata : ("error" : String).data = 'e' :: 'r' :: 'r' :: 'o' :: 'r' :: [] := rfl
  have hdata2 : ("err" : String).data = 'e' :: 'r' :: 'r' :: [] := rfl
  rw [hdata] at hpq
  rw [hdata2]
  simp only [List.cons_append, List.nil_append, List.append_assoc] at hpq ⊢
  exact hpq

/-- C5: severity classification checks the keywords case-insensitively in the
fixed priority order error/err → 3, warning/warn → 4, crit → 2, alert → 1,
emerg → 0, debug → 7, notice → 5; the first match wins and no match defaults
to 6.  In particular a line containing both "warning" and "debug" (and no
earlier-priority err keyword) classifies as "4", not "7". -/
theorem severity_keyword_priority :
    (∀ line : String, inferPrio line = specPrio line)
    ∧ (∀ line : String,
        pyIn "warning" (pyLower line) = true →
        pyIn "debug" (pyLower line) = true →
        pyIn "err" (pyLower line) = false →
        inferPrio line = "4") := by
  constructor
  · intro line
    rw [inferPrio, inferPrioLoop_eq_find]
    rfl
  · intro line hw _hd he
    have herror : pyIn "error" (pyLower line) = false := by
      cases hcase : pyIn "error" (pyLower line) with
      | false => rfl
      | true => rw [pyIn_err_of_error _ hcase] at he; exact absurd he (by simp)
    rw [inferPrio]
    simp [prioKeywords, inferPrioLoop, herror, he, hw]

/-- Witness for C5 at a concrete line containing both "warning" and "debug". -/
theorem severity_keyword_priority_witness :
    pyIn "warning" (pyLower "kernel: WARNING debug mode") = true
    ∧ inferPrio "kernel: WARNING debug mode" = "4" :=
  ⟨by decide,
   severity_keyword_priority.2 "kernel: WARNING debug mode"
     (by decide) (by decide) (by decide)⟩

/-- C3 counterexample: the first example line contains no severity keyword,
so it classifies as "6" (info), not "3", and the message field is not the
remainder of the line after the timestamp token. -/
theorem classify_example_counterexample :
    ¬ ((classifyLine "2024-01-01T10:00:00 sshd: Failed password for root").prio = "3"
       ∧ (classifyLine "2024-01-01T10:00:00 sshd: Failed password for root").msg
           = "sshd: Failed password for root") := by
  decide

/-- C3 amended: both example lines classify with severity "6"; the timestamp
is the first space-separated token, and the message is the remainder after
the first three space-separated tokens (`line.split(" ", 3)[-1]`). -/
theorem classify_example_records :
    classifyLine "2024-01-01T10:00:00 sshd: Failed password for root"
      = { prio := "6", ts := "2024-01-01T10:00:00", msg := "password for root" }
    ∧ classifyLine "2024-01-01T10:00:01 kernel: info message"
      = { prio := "6", ts := "2024-01-01T10:00:01", msg := "message" } := by
  decide

/-! ### Text filter (C8) -/

/-- C8: the filter predicate accepts every record when the search text is
empty, and otherwise accepts exactly the records whose lowercased message
contains the lowercased search text as a contiguous substring. -/
theorem filter_search_contract :
    ∀ searchText msg : String,
      filterFunc searchText msg = true ↔
        (searchText = ""
          ∨ ∃ p q, (pyLower msg).data = p ++ (pyLower searchText).data ++ q) := by
  intro s m
  show (if pyLower s = "" then true else pyIn (pyLower s) (pyLower m)) = true ↔ _
  by_cases hs : s = ""
  · subst hs
    have h0 : pyLower "" = "" := rfl
    rw [if_pos h0]
    simp
  · have hls : ¬ pyLower s = "" := fun hcon => hs ((pyLower_eq_empty_iff s).mp hcon)
    rw [if_neg hls, pyIn_iff]
    constructor
    · intro h
      exact Or.inr h
    · rintro (hcon | h)
      · exact absurd hcon hs
      · exact h

/-! ### Command construction (C6) -/

/-- C6 counterexample: a whitespace-only since value is non-empty, yet the
built command carries no since restriction at all — the entry text is
stripped first, so the value is not passed through verbatim exactly when
non-empty. -/
theorem since_whitespace_counterexample :
    (" " : String) ≠ "" ∧ "--since" ∉ buildCmd "" 0 " " false := by
  decide

/-- C6 amended: the built command is the fixed prefix, then the unit
restriction exactly when the stripped unit text is non-empty, the severity
restriction exactly when a priority is selected, the stripped since value
exactly when it is non-empty, and the follow flag (no cap) or the fixed
1000-entry cap. -/
theorem buildCmd_matches_spec (u : String) (idx : Nat) (s : String)
    (follow : Bool) :
    buildCmd u idx s follow = specCmd u idx s follow := by
  by_cases hu : pyStrip u = "" <;> by_cases hp : idx > 0 <;>
    by_cases hs : pyStrip s = "" <;> cases follow <;>
      simp [buildCmd, specCmd, hu, hp, hs]

/-! ### Batch loading (C2, C9, C10) -/

/-- C2 counterexample: a command that exits non-zero with empty output
produces exactly the same window state as a successful command with zero
log lines — an empty store, no error record, nothing for the caller to
distinguish. -/
theorem nonzero_exit_indistinguishable :
    loadLogs { store := [], allLines := [] } (.ok 1 "")
        = loadLogs { store := [], allLines := [] } (.ok 0 "")
    ∧ (loadLogs { store := [], allLines := [] } (.ok 1 "")).store = [] :=
  ⟨rfl, rfl⟩

/-- C2 amended: the exit code of a completed one-shot load is ignored (any
exit code yields the same state as exit code 0); only a raised exception
(timeout or spawn failure) produces the single synthetic error record. -/
theorem load_ignores_exit_code :
    (∀ (st : WinState) (rc rc' : Int) (out : String),
        loadLogs st (.ok rc out) = loadLogs st (.ok rc' out))
    ∧ (∀ (st : WinState) (m : String),
        (loadLogs st (.exn m)).store = [{ prio := "3", ts := "", msg := m }]) :=
  ⟨fun _ _ _ _ => rfl, fun _ _ => rfl⟩

/-- C9: a batch load clears the store and the raw-line list first (its result
is independent of the prior state); a failed load leaves exactly one
synthetic record with priority "3" and empty timestamp in the store, nothing
in the raw-line list, and an empty exported text. -/
theorem failed_load_synthetic_record :
    (∀ (st st' : WinState) (o : RunOutcome), loadLogs st o = loadLogs st' o)
    ∧ (∀ (st : WinState) (m : String),
        (loadLogs st (.exn m)).store = [{ prio := "3", ts := "", msg := m }]
        ∧ (loadLogs st (.exn m)).allLines = []
        ∧ exportText (loadLogs st (.exn m)) = "") :=
  ⟨fun _ _ _ => rfl, fun _ _ => ⟨rfl, rfl, rfl⟩⟩

/-- C10: a completed load whose captured stdout is empty or all whitespace
produces zero records and zero raw lines: the output is stripped before the
split into lines, so not even an empty-string record is created. -/
theorem whitespace_output_no_records (st : WinState) (rc : Int) (out : String)
    (h : ∀ c ∈ out.data, isPySpace c = true) :
    loadLogs st (.ok rc out) = { store := [], allLines := [] } := by
  have hs := pyStrip_of_all_space out h
  simp [loadLogs, hs]

/-- Witness for C10 at a concrete all-whitespace stdout. -/
theorem whitespace_output_no_records_witness :
    loadLogs { store := [], allLines := [] } (.ok 1 " \n\t ")
      = { store := [], allLines := [] } :=
  whitespace_output_no_records { store := [], allLines := [] } 1 " \n\t "
    (by decide)

/-! ### Filtered view (C7) -/

theorem vsAppend_inv (st : ViewState) (r : LogRecord) (s : String)
    (h1 : st.search = s)
    (h : st.visibleCache = st.records.filter (fun x => filterFunc s x.msg)) :
    (vsAppend st r).visibleCache
      = (vsAppend st r).records.filter (fun x => filterFunc s x.msg) := by
  show (if filterFunc st.search r.msg then st.visibleCache ++ [r]
        else st.visibleCache)
      = (st.records ++ [r]).filter (fun x => filterFunc s x.msg)
  rw [h1, List.filter_append, ← h]
  cases hf : filterFunc s r.msg with
  | true => simp [hf, List.filter_cons]
  | false => simp [hf, List.filter_cons]

theorem foldl_vsAppend_inv (s : String) :
    ∀ (rs : List LogRecord) (st : ViewState),
      st.search = s →
      st.visibleCache = st.records.filter (fun r => filterFunc s r.msg) →
      (List.foldl vsAppend st rs).search = s
        ∧ (List.foldl vsAppend st rs).visibleCache
            = (List.foldl vsAppend st rs).records.filter
                (fun r => filterFunc s r.msg) := by
  intro rs
  induction rs with
  | nil =>
    intro st h1 h2
    exact ⟨h1, h2⟩
  | cons r rest ih =>
    intro st h1 h2
    exact ih (vsAppend st r) h1 (vsAppend_inv st r s h1 h2)

/-- C7: after a filter change followed by any sequence of appends, the
visible subset of the view equals exactly the stored records passing the
predicate for the latest filter; it is never computed against a stale
filter. -/
theorem visible_matches_latest_filter (st : ViewState) (s : String)
    (rs : List LogRecord) :
    (List.foldl vsAppend (vsSetFilter st s) rs).search = s
    ∧ (List.foldl vsAppend (vsSetFilter st s) rs).visibleCache
        = (List.foldl vsAppend (vsSetFilter st s) rs).records.filter
            (fun r => filterFunc s r.msg) :=
  foldl_vsAppend_inv s rs (vsSetFilter st s) rfl rfl

/-! ### Follow session (C1, C4) -/

/-- C1 counterexample: two start events with no intervening stop leave two
spawned processes neither of which has been sent a termination signal —
the handler has no re-entrancy guard, so the second start is neither a
no-op nor an error. -/
theorem double_start_two_live_processes :
    (liveProcs (fstep (fstep fInit .start) .start)).length = 2 := by
  decide

def fGood (s : FState) : Prop :=
  0 ∉ s.terminated ∧ 1 ≤ s.spawned ∧ ∀ p, s.owned = some p → 1 ≤ p

theorem fGood_step (s : FState) (ev : FEv) (h : fGood s) : fGood (fstep s ev) := by
  obtain ⟨h0, h1, h2⟩ := h
  cases ev with
  | start =>
    refine ⟨h0, by simp [fstep], ?_⟩
    intro p hp
    simp only [fstep] at hp
    injection hp with hp1
    omega
  | stop =>
    refine ⟨?_, h1, fun p hp => h2 p hp⟩
    show 0 ∉ (match s.owned with
              | some q => s.terminated ++ [q]
              | none => s.terminated)
    cases ho : s.owned with
    | none => exact h0
    | some q =>
      have hq := h2 q ho
      intro hmem
      rcases List.mem_append.mp hmem with hmem | hmem
      · exact h0 hmem
      · simp at hmem
        omega

theorem fGood_foldl :
    ∀ (evs : List FEv) (s : FState), fGood s → fGood (List.foldl fstep s evs)
  | [], _, h => h
  | e :: es, s, h => fGood_foldl es (fstep s e) (fGood_step s e h)

/-- C1 amended: a second start event without an intervening stop spawns a
second process and overwrites the owned handle with it; the first process
(id 0) is orphaned — no sequence of further start/stop events ever sends it
a termination signal. -/
theorem second_start_orphans_first :
    (fstep (fstep fInit .start) .start).owned = some 1
    ∧ (fstep (fstep fInit .start) .start).spawned = 2
    ∧ ∀ evs : List FEv,
        0 ∉ (List.foldl fstep (fstep (fstep fInit .start) .start) evs).terminated := by
  refine ⟨rfl, rfl, ?_⟩
  intro evs
  have hg : fGood (fstep (fstep fInit .start) .start) := by
    refine ⟨by decide, by decide, ?_⟩
    intro p hp
    have howned : (fstep (fstep fInit .start) .start).owned = some 1 := rfl
    rw [howned] at hp
    injection hp with hp1
    omega
  exact (fGood_foldl evs _ hg).1

theorem followLoopFrom_length_le (flag : Nat → Bool) (k : Nat)
    (hk : ∀ i, k ≤ i → flag i = false) :
    ∀ (lines : List String) (i : Nat),
      (followLoopFrom flag lines i).length ≤ k - i := by
  intro lines
  induction lines with
  | nil =>
    intro i
    simp [followLoopFrom]
  | cons l ls ih =>
    intro i
    cases hf : flag i with
    | false => simp [followLoopFrom, hf]
    | true =>
      have hik : i < k := by
        by_contra hcon
        have hfalse := hk i (by omega)
        rw [hfalse] at hf
        exact Bool.noConfusion hf
      have h1 := ih (i + 1)
      by_cases hl : pyStrip l = "" <;> simp [followLoopFrom, hf, hl] <;> omega

/-- C4: a stop event clears the running flag and immediately sends a
termination signal to the owned process (the transition itself does not wait
on the reading thread); and the reading loop delivers at most `k` records
once the cleared flag is visible from the `k`-th observation on — delivery
of buffered lines is bounded and eventually ceases. -/
theorem stop_signals_then_delivery_ceases :
    (∀ (s : FState) (p : Nat), s.owned = some p →
        (fstep s .stop).running = false ∧ p ∈ (fstep s .stop).terminated)
    ∧ (∀ (lines : List String) (flag : Nat → Bool) (k : Nat),
        (∀ i, k ≤ i → flag i = false) →
        (followLoop lines flag).length ≤ k) := by
  constructor
  · intro s p hp
    refine ⟨rfl, ?_⟩
    show p ∈ (match s.owned with
              | some q => s.terminated ++ [q]
              | none => s.terminated)
    rw [hp]
    simp
  · intro lines flag k hk
    have h := followLoopFrom_length_le flag k hk lines 0
    simpa using h

/-- Witness for C4 at a concrete running session and a flag that is already
observed false. -/
theorem stop_signals_witness :
    ((fstep { running := true, owned := some 0, spawned := 1, terminated := [] } .stop).running = false
      ∧ 0 ∈ (fstep { running := true, owned := some 0, spawned := 1, terminated := [] } .stop).terminated)
    ∧ (followLoop ["a line"] (fun _ => false)).length ≤ 0 :=
  ⟨stop_signals_then_delivery_ceases.1
      { running := true, owned := some 0, spawned := 1, terminated := [] } 0 rfl,
   stop_signals_then_delivery_ceases.2 ["a line"] (fun _ => false) 0
      (fun _ _ => rfl)⟩

end LogViewer
